import Mathlib

/-!
Shallow embedding of `src/cycle_analysis.py`.

The script computes Brayton-cycle and combined-cycle performance figures from
interpolated air-property data.  Its numeric collaborators — `scipy.optimize.fsolve`
(of which the script always takes component `[0]`), the `interp1d` property
functions `h` and `s`, `np.log`, and the seed exponent `r ** 0.3` — are external
black boxes; we model them as fields of a context `Ctx`, and state the theorems
over an arbitrary linear ordered field so every definition stays computable and
can be evaluated on `ℚ` instances.
-/

namespace CycleAnalysis

variable {α : Type*} [LinearOrderedField α]

/-- The external numeric collaborators of the script, in source order of first
use: `fsolve f x0` models `scipy.optimize.fsolve(f, x0)[0]`; `h` and `s` model
the `interp1d` enthalpy and entropy functions built from the data table; `log`
models `np.log`; `pow03` models the map `r ↦ r ** 0.3` used only for solver
seeds.  Anonymous-constructor field order: `fsolve`, `h`, `s`, `log`, `pow03`. -/
structure Ctx (α : Type*) where
  fsolve : (α → α) → α → α
  h : α → α
  s : α → α
  log : α → α
  pow03 : α → α

/-- Source constant `T1 = 298.15` (compressor inlet temperature, K). -/
def T1 : α := 298.15

/-- Source constant `T3 = 1200.0` (turbine inlet temperature, K). -/
def T3 : α := 1200.0

/-- Source constant `R = 0.287` (gas constant, kJ/kg·K). -/
def R : α := 0.287

/-- Source constant `eta_c = 0.90` (module-level compressor isentropic
efficiency). -/
def eta_c : α := 0.90

/-- Source constant `eta_t = 0.90` (module-level turbine isentropic
efficiency). -/
def eta_t : α := 0.90

/-- Source function `thermal_efficiency(r)`: resolves `T2s` and `T4s` by
root-finding, applies the component efficiencies, and returns `w_net / q_in`. -/
def thermal_efficiency (c : Ctx α) (r : α) : α :=
  let s1 := c.s T1
  let T2s := c.fsolve (fun T => c.s T - s1 - R * c.log r) (T1 * c.pow03 r)
  let h1 := c.h T1
  let h2s := c.h T2s
  let h2 := h1 + (h2s - h1) / eta_c
  let s3 := c.s T3
  let T4s := c.fsolve (fun T => c.s T - s3 + R * c.log r) (T3 / c.pow03 r)
  let h3 := c.h T3
  let h4s := c.h T4s
  let h4 := h3 - eta_t * (h3 - h4s)
  let w_net := (h3 - h4) - (h2 - h1)
  let q_in := h3 - h2
  w_net / q_in

/-- Source function `net_work(r)`: the same state resolution, returning
`(h3 - h4) - (h2 - h1)`. -/
def net_work (c : Ctx α) (r : α) : α :=
  let s1 := c.s T1
  let T2s := c.fsolve (fun T => c.s T - s1 - R * c.log r) (T1 * c.pow03 r)
  let h1 := c.h T1
  let h2s := c.h T2s
  let h2 := h1 + (h2s - h1) / eta_c
  let s3 := c.s T3
  let T4s := c.fsolve (fun T => c.s T - s3 + R * c.log r) (T3 / c.pow03 r)
  let h3 := c.h T3
  let h4s := c.h T4s
  let h4 := h3 - eta_t * (h3 - h4s)
  (h3 - h4) - (h2 - h1)

/-- Source function `thermal_efficiency_sens(r, eta_c_val, eta_t_val)`: the
same logic with variable efficiencies, returning the efficiency in percent. -/
def thermal_efficiency_sens (c : Ctx α) (r eta_c_val eta_t_val : α) : α :=
  let s1 := c.s T1
  let T2s := c.fsolve (fun T => c.s T - s1 - R * c.log r) (T1 * c.pow03 r)
  let h1 := c.h T1
  let h2s := c.h T2s
  let h2 := h1 + (h2s - h1) / eta_c_val
  let s3 := c.s T3
  let T4s := c.fsolve (fun T => c.s T - s3 + R * c.log r) (T3 / c.pow03 r)
  let h3 := c.h T3
  let h4s := c.h T4s
  let h4 := h3 - eta_t_val * (h3 - h4s)
  let w_net := (h3 - h4) - (h2 - h1)
  let q_in := h3 - h2
  (w_net / q_in) * 100

/-- Source constant `T_stack = 460.0` (stack temperature, K). -/
def T_stack : α := 460.0

/-- Source constant `T4_limit = 673.15` (400 °C Rankine limit). -/
def T4_limit : α := 673.15

/-- Source constant `eta_rankine_1kg = 36.53` (Rankine efficiency, percent). -/
def eta_rankine_1kg : α := 36.53

/-- Source constant `q_in_rankine = 2917.0` (Rankine heat input, kJ/kg). -/
def q_in_rankine : α := 2917.0

/-- Source function `calculate_efficiencies_comb(r)`: Brayton evaluation with
fixed seeds `350`, `1000`, inverse-enthalpy resolution of the actual exhaust
temperature from seed `800`, the hard exhaust-threshold decision, and the
returned triple `(eta_brayton, eta_combined, T4_real)`. -/
def calculate_efficiencies_comb (c : Ctx α) (r : α) : α × α × α :=
  let s1 := c.s T1
  let T2s := c.fsolve (fun T => c.s T - s1 - R * c.log r) 350
  let h1 := c.h T1
  let h2s := c.h T2s
  let h2 := h1 + (h2s - h1) / eta_c
  let s3 := c.s T3
  let T4s := c.fsolve (fun T => c.s T - s3 + R * c.log r) 1000
  let h3 := c.h T3
  let h4s := c.h T4s
  let h4 := h3 - eta_t * (h3 - h4s)
  let w_net_brayton := (h3 - h4) - (h2 - h1)
  let q_in_brayton := h3 - h2
  let eta_brayton := (w_net_brayton / q_in_brayton) * 100
  let T4_real := c.fsolve (fun T => c.h T - h4) 800
  if T4_real ≥ T4_limit then
    let h_stack := c.h T_stack
    let q_to_rankine := max 0 (h4 - h_stack)
    let m_steam := q_to_rankine / q_in_rankine
    let w_rankine := m_steam * (q_in_rankine * eta_rankine_1kg / 100)
    let eta_combined := ((w_net_brayton + w_rankine) / q_in_brayton) * 100
    (eta_brayton, eta_combined, T4_real)
  else
    (eta_brayton, eta_brayton, T4_real)

/-! Named projections of the intermediate quantities the three Brayton
functions compute, used to state the theorems.  Each is the code's expression
with the `let` bindings inlined. -/

/-- The `T2s` root-find of `thermal_efficiency` / `net_work` /
`thermal_efficiency_sens` (seed `T1 * r ** 0.3`). -/
def T2s_of (c : Ctx α) (r : α) : α :=
  c.fsolve (fun T => c.s T - c.s T1 - R * c.log r) (T1 * c.pow03 r)

/-- The `T4s` root-find of `thermal_efficiency` / `net_work` /
`thermal_efficiency_sens` (seed `T3 / r ** 0.3`). -/
def T4s_of (c : Ctx α) (r : α) : α :=
  c.fsolve (fun T => c.s T - c.s T3 + R * c.log r) (T3 / c.pow03 r)

/-- The actual compressor exit enthalpy `h2` computed by `thermal_efficiency`. -/
def h2_of (c : Ctx α) (r : α) : α :=
  c.h T1 + (c.h (T2s_of c r) - c.h T1) / eta_c

/-- The actual turbine exit enthalpy `h4` computed by `thermal_efficiency`. -/
def h4_of (c : Ctx α) (r : α) : α :=
  c.h T3 - eta_t * (c.h T3 - c.h (T4s_of c r))

/-- The `w_net` computed inside `thermal_efficiency` (the numerator of its
returned ratio). -/
def w_net_of (c : Ctx α) (r : α) : α :=
  (c.h T3 - h4_of c r) - (h2_of c r - c.h T1)

/-- The `q_in` computed inside `thermal_efficiency` (the denominator of its
returned ratio). -/
def q_in_of (c : Ctx α) (r : α) : α :=
  c.h T3 - h2_of c r

/-! The same projections for `calculate_efficiencies_comb`, whose solver seeds
are the constants `350`, `1000` and `800`. -/

/-- The `T2s` root-find of `calculate_efficiencies_comb` (seed `350`). -/
def T2s_comb (c : Ctx α) (r : α) : α :=
  c.fsolve (fun T => c.s T - c.s T1 - R * c.log r) 350

/-- The `T4s` root-find of `calculate_efficiencies_comb` (seed `1000`). -/
def T4s_comb (c : Ctx α) (r : α) : α :=
  c.fsolve (fun T => c.s T - c.s T3 + R * c.log r) 1000

/-- The `h2` of `calculate_efficiencies_comb`. -/
def h2_comb (c : Ctx α) (r : α) : α :=
  c.h T1 + (c.h (T2s_comb c r) - c.h T1) / eta_c

/-- The `h4` of `calculate_efficiencies_comb`. -/
def h4_comb (c : Ctx α) (r : α) : α :=
  c.h T3 - eta_t * (c.h T3 - c.h (T4s_comb c r))

/-- The `w_net_brayton` of `calculate_efficiencies_comb`. -/
def w_net_comb (c : Ctx α) (r : α) : α :=
  (c.h T3 - h4_comb c r) - (h2_comb c r - c.h T1)

/-- The `q_in_brayton` of `calculate_efficiencies_comb`. -/
def q_in_comb (c : Ctx α) (r : α) : α :=
  c.h T3 - h2_comb c r

/-- The `eta_brayton` of `calculate_efficiencies_comb` (percent). -/
def eta_brayton_comb (c : Ctx α) (r : α) : α :=
  (w_net_comb c r / q_in_comb c r) * 100

/-- The inverse-enthalpy root-find `T4_real` of `calculate_efficiencies_comb`
(seed `800`, target `h4`). -/
def T4_real_comb (c : Ctx α) (r : α) : α :=
  c.fsolve (fun T => c.h T - h4_comb c r) 800

/-- The `w_rankine` of `calculate_efficiencies_comb`:
`m_steam * (q_in_rankine * eta_rankine_1kg / 100)` with
`m_steam = max(0, h4 - h_stack) / q_in_rankine`. -/
def w_rankine_comb (c : Ctx α) (r : α) : α :=
  (max 0 (h4_comb c r - c.h T_stack) / q_in_rankine) * (q_in_rankine * eta_rankine_1kg / 100)

/-! The component state model of §4.2 of the specification, written from the
specification's words, to be compared with the inline expressions of the
source. -/

/-- Specification formula for a compressor leg:
`h_out_actual = h_in + (h_out_isentropic - h_in) / efficiency`. -/
def h_out_actual_compression (h_in h_out_isentropic efficiency : α) : α :=
  h_in + (h_out_isentropic - h_in) / efficiency

/-- Specification formula for a turbine leg:
`h_out_actual = h_in - efficiency * (h_in - h_out_isentropic)`. -/
def h_out_actual_expansion (h_in h_out_isentropic efficiency : α) : α :=
  h_in - efficiency * (h_in - h_out_isentropic)

/-! The sweep driver of Part 2: `w_net_values = [net_work(r) for r in r_values_2]`,
`w_net_max = max(w_net_values)`, `r_opt = r_values_2[np.argmax(w_net_values)]`. -/

/-- Model of Python's builtin `max` over a list: a left fold of the binary
comparison that keeps the current value unless the next is strictly greater
(which is how `max` walks an iterable); `0` for the empty list, on which the
source never calls it. -/
def pyMax : List α → α
  | [] => 0
  | x :: xs => xs.foldl (fun a b => if a < b then b else a) x

/-- Model of `np.argmax`: the index of the first occurrence of the maximum
value of the list (ties broken by first occurrence), `0` for the empty list. -/
def npArgmax : List α → ℕ
  | [] => 0
  | x :: xs => if pyMax (x :: xs) ≤ x then 0 else npArgmax xs + 1

/-- The list `w_net_values` of Part 2, over an arbitrary input sequence of
compression ratios. -/
def w_net_values (c : Ctx α) (rs : List α) : List α :=
  rs.map (net_work c)

/-- The reported `w_net_max = max(w_net_values)` of Part 2. -/
def w_net_max (c : Ctx α) (rs : List α) : α :=
  pyMax (w_net_values c rs)

/-- The reported `r_opt = r_values_2[np.argmax(w_net_values)]` of Part 2. -/
def r_opt (c : Ctx α) (rs : List α) : α :=
  rs.getD (npArgmax (w_net_values c rs)) 0

/-! The data-loading front end, `load_data(filename)`.  Reading the file and
the regex extraction of floats are peripheral I/O; they are modelled as opaque
collaborators `read` (which models `open(filename).read()` together with the
two `except` clauses: any raised error lands in the `Except.error` branch) and
`findall` (the regex float extraction).  The printed messages are console I/O
and lie outside the embedding. -/

/-- Model of `np.zeros((10, 6))`: ten rows of six zeros. -/
def np_zeros_10_6 : List (List α) :=
  List.replicate 10 (List.replicate 6 0)

/-- Model of `numbers[:num_rows*num_cols].reshape((num_rows, num_cols))` with
`num_cols = 6`: the first `n` rows of six consecutive entries each. -/
def reshapeRows : ℕ → List α → List (List α)
  | 0, _ => []
  | n + 1, l => l.take 6 :: reshapeRows n (l.drop 6)

/-- Source function `load_data(filename)`: on a successful read, extract all
numbers and reshape them into a `num_rows × 6` matrix; on any raised error
(missing file or any other exception), return the `10 × 6` zero matrix. -/
def load_data {β ε σ : Type*} (read : β → Except ε σ) (findall : σ → List α)
    (filename : β) : List (List α) :=
  match read filename with
  | Except.ok content =>
      let numbers := findall content
      let num_rows := numbers.length / 6
      reshapeRows num_rows numbers
  | Except.error _ => np_zeros_10_6

/-! Concrete contexts over `ℚ`, used to evaluate the evaluators at explicit
inputs.  Field order: `fsolve`, `h`, `s`, `log`, `pow03`. -/

/-- A context whose solver echoes its seed, with identity enthalpy, zero
entropy and zero log: both entropy root-finds have zero residual. -/
def specCtx : Ctx ℚ :=
  ⟨fun _ x0 => x0, fun T => T, fun _ => 0, fun _ => 0, fun _ => 1⟩

/-- A context whose solver echoes its seed and whose property functions are
identically zero: the inverse-enthalpy root-find has zero residual. -/
def flatCtx : Ctx ℚ :=
  ⟨fun _ x0 => x0, fun _ => 0, fun _ => 0, fun _ => 0, fun _ => 1⟩

/-- A context whose solver echoes its seed, with identity property functions. -/
def echoCtx : Ctx ℚ :=
  ⟨fun _ x0 => x0, fun T => T, fun T => T, fun _ => 0, fun _ => 1⟩

/-- A context whose solver returns `500` regardless of the residual: a stuck,
unconverged root-find (the entropy residual at `500` is nonzero). -/
def stuckCtx : Ctx ℚ :=
  ⟨fun _ _ => 500, fun T => T, fun T => T, fun _ => 0, fun _ => 1⟩

/-- A context whose solver returns `2000`, driving the compressor exit
enthalpy above the turbine inlet enthalpy: `q_in < 0`. -/
def degCtx : Ctx ℚ :=
  ⟨fun _ _ => 2000, fun T => T, fun T => T, fun _ => 0, fun _ => 1⟩

/-- A context whose solver echoes its seed, with identity property functions
and seed scaling `pow03 = 2`: nondegenerate values at invalid parameters. -/
def seedCtx : Ctx ℚ :=
  ⟨fun _ x0 => x0, fun T => T, fun T => T, fun _ => 0, fun _ => 2⟩

/-! Helper lemmas. -/

/-- Unfolding `calculate_efficiencies_comb` into its named projections: the
returned triple is `(eta_brayton, eta_combined, T4_real)` with the branch on
`T4_real ≥ T4_limit` confined to the middle component. -/
theorem calculate_efficiencies_comb_eq (c : Ctx α) (r : α) :
    calculate_efficiencies_comb c r =
      (eta_brayton_comb c r,
       if T4_real_comb c r ≥ T4_limit then
         ((w_net_comb c r + w_rankine_comb c r) / q_in_comb c r) * 100
       else eta_brayton_comb c r,
       T4_real_comb c r) := by
  have h1 : calculate_efficiencies_comb c r =
      if T4_real_comb c r ≥ T4_limit then
        (eta_brayton_comb c r,
         ((w_net_comb c r + w_rankine_comb c r) / q_in_comb c r) * 100,
         T4_real_comb c r)
      else (eta_brayton_comb c r, eta_brayton_comb c r, T4_real_comb c r) := rfl
  rw [h1]
  by_cases hT : T4_real_comb c r ≥ T4_limit
  · rw [if_pos hT, if_pos hT]
  · rw [if_neg hT, if_neg hT]

/-- The fold step of `pyMax` is `max`. -/
theorem pyMax_step_eq_max (a b : α) : (if a < b then b else a) = max a b := by
  rcases lt_or_le a b with h | h
  · rw [if_pos h, max_eq_right h.le]
  · rw [if_neg (not_lt.mpr h), max_eq_left h]

/-- On a nonempty list, `pyMax` is a left fold of `max`. -/
theorem pyMax_cons (x : α) (xs : List α) :
    pyMax (x :: xs) = xs.foldl max x := by
  have hstep : (fun a b : α => if a < b then b else a) = max := by
    funext a b
    exact pyMax_step_eq_max a b
  rw [pyMax, hstep]

/-- The accumulator bounds a left `max`-fold from below. -/
theorem le_foldl_max (l : List α) (a : α) : a ≤ l.foldl max a := by
  induction l generalizing a with
  | nil => exact le_refl a
  | cons y l ih =>
    rw [List.foldl_cons]
    exact le_trans (le_max_left a y) (ih (max a y))

/-- Every member of the list bounds a left `max`-fold from below. -/
theorem mem_le_foldl_max (l : List α) (a x : α) (hx : x ∈ l) :
    x ≤ l.foldl max a := by
  induction l generalizing a with
  | nil => exact absurd hx (List.not_mem_nil x)
  | cons y l ih =>
    rw [List.foldl_cons]
    rcases List.mem_cons.mp hx with h | h
    · rw [h]
      exact le_trans (le_max_right a y) (le_foldl_max l (max a y))
    · exact ih (max a y) h

/-- A left `max`-fold returns the accumulator or a member of the list. -/
theorem foldl_max_mem (l : List α) (a : α) :
    l.foldl max a = a ∨ l.foldl max a ∈ l := by
  induction l generalizing a with
  | nil => exact Or.inl rfl
  | cons y l ih =>
    rw [List.foldl_cons]
    rcases ih (max a y) with h | h
    · rcases max_choice a y with hm | hm
      · exact Or.inl (h.trans hm)
      · exact Or.inr (by rw [h, hm]; exact List.mem_cons_self y l)
    · exact Or.inr (List.mem_cons_of_mem y h)

/-- A `max` in the accumulator of a left `max`-fold commutes out. -/
theorem foldl_max_max (a b : α) (l : List α) :
    l.foldl max (max a b) = max a (l.foldl max b) := by
  induction l generalizing b with
  | nil => rfl
  | cons y l ih =>
    rw [List.foldl_cons, List.foldl_cons, max_assoc, ih]

/-- On a nonempty list, `pyMax` is a member of the list. -/
theorem pyMax_mem (l : List α) (hl : l ≠ []) : pyMax l ∈ l := by
  match l with
  | [] => exact absurd rfl hl
  | x :: xs =>
    rw [pyMax_cons]
    rcases foldl_max_mem xs x with h | h
    · rw [h]
      exact List.mem_cons_self x xs
    · exact List.mem_cons_of_mem x h

/-- `pyMax` is an upper bound of the list. -/
theorem le_pyMax (l : List α) (x : α) (hx : x ∈ l) : x ≤ pyMax l := by
  match l with
  | [] => exact absurd hx (List.not_mem_nil x)
  | y :: ys =>
    rw [pyMax_cons]
    rcases List.mem_cons.mp hx with h | h
    · exact h ▸ le_foldl_max ys y
    · exact mem_le_foldl_max ys y x h

/-- Peeling the head off `pyMax` of a list of length at least two. -/
theorem pyMax_cons_cons (x y : α) (ys : List α) :
    pyMax (x :: y :: ys) = max x (pyMax (y :: ys)) := by
  rw [pyMax_cons, pyMax_cons, List.foldl_cons, foldl_max_max]

/-- Correctness of `npArgmax` on a nonempty list: the index is in range, the
entry there is the maximum, and every earlier entry is strictly below the
maximum (first-occurrence tie-breaking). -/
theorem npArgmax_spec (l : List α) (hl : l ≠ []) :
    npArgmax l < l.length ∧
    l.getD (npArgmax l) 0 = pyMax l ∧
    ∀ j < npArgmax l, l.getD j 0 < pyMax l := by
  induction l with
  | nil => exact absurd rfl hl
  | cons x xs ih =>
    have hunf : npArgmax (x :: xs) =
        if pyMax (x :: xs) ≤ x then 0 else npArgmax xs + 1 := rfl
    by_cases hx : pyMax (x :: xs) ≤ x
    · rw [hunf, if_pos hx]
      have hxle : x ≤ pyMax (x :: xs) := le_pyMax _ x (List.mem_cons_self x xs)
      refine ⟨Nat.succ_pos xs.length, ?_, ?_⟩
      · rw [List.getD_cons_zero]
        exact le_antisymm hxle hx
      · intro j hj
        exact absurd hj (Nat.not_lt_zero j)
    · rw [hunf, if_neg hx]
      match xs with
      | [] =>
        exact absurd (by rw [pyMax_cons, List.foldl_nil]) hx
      | y :: ys =>
        have hpeel : pyMax (x :: y :: ys) = max x (pyMax (y :: ys)) :=
          pyMax_cons_cons x y ys
        have hxlt : x < pyMax (x :: y :: ys) :=
          lt_of_not_le fun hle => hx hle
        have htail : pyMax (x :: y :: ys) = pyMax (y :: ys) := by
          rcases max_choice x (pyMax (y :: ys)) with hm | hm
          · exact absurd (hpeel.trans hm) (ne_of_gt hxlt)
          · exact hpeel.trans hm
        obtain ⟨ih1, ih2, ih3⟩ := ih (List.cons_ne_nil y ys)
        refine ⟨Nat.succ_lt_succ ih1, ?_, ?_⟩
        · rw [List.getD_cons_succ, htail]
          exact ih2
        · intro j hj
          match j with
          | 0 =>
            rw [List.getD_cons_zero]
            exact hxlt
          | k + 1 =>
            rw [List.getD_cons_succ, htail]
            exact ih3 k (Nat.lt_of_succ_lt_succ hj)

/-- `getD` with an in-range index commutes with `map`. -/
theorem getD_map_of_lt (f : α → α) (l : List α) (j : ℕ) (hj : j < l.length) :
    (l.map f).getD j 0 = f (l.getD j 0) := by
  induction l generalizing j with
  | nil => exact absurd hj (Nat.not_lt_zero j)
  | cons x xs ih =>
    match j with
    | 0 => rfl
    | k + 1 =>
      rw [List.map_cons, List.getD_cons_succ, List.getD_cons_succ]
      exact ih k (Nat.lt_of_succ_lt_succ hj)

/-! Claim theorems. -/

/-- C1: whenever the two entropy root-finds converge (zero residual on the
functions the code hands `fsolve`), the Brayton evaluator has resolved `T2s`
from the entropy target `s1 + R·ln r` and `T4s` from `s3 - R·ln r`, and it
returns `thermal_efficiency = ((h3 - h4) - (h2 - h1)) / (h3 - h2)`, whose
numerator is exactly the `net_work` of the net-work evaluator. -/
theorem brayton_evaluator_correct (c : Ctx α) (r : α)
    (hc : c.s (T2s_of c r) - c.s T1 - R * c.log r = 0)
    (ht : c.s (T4s_of c r) - c.s T3 + R * c.log r = 0) :
    c.s (T2s_of c r) = c.s T1 + R * c.log r ∧
    c.s (T4s_of c r) = c.s T3 - R * c.log r ∧
    thermal_efficiency c r =
      ((c.h T3 - h4_of c r) - (h2_of c r - c.h T1)) / (c.h T3 - h2_of c r) ∧
    net_work c r = (c.h T3 - h4_of c r) - (h2_of c r - c.h T1) :=
  ⟨by linarith, by linarith, rfl, rfl⟩

/-- Witness for C1 at the context with zero entropy and zero log (both
residuals vanish) and `r = 10`. -/
theorem brayton_evaluator_correct_witness :
    (specCtx.s (T2s_of specCtx 10) - specCtx.s T1 - R * specCtx.log 10 = 0) ∧
    (specCtx.s (T4s_of specCtx 10) - specCtx.s T3 + R * specCtx.log 10 = 0) ∧
    (specCtx.s (T2s_of specCtx 10) = specCtx.s T1 + R * specCtx.log 10 ∧
     specCtx.s (T4s_of specCtx 10) = specCtx.s T3 - R * specCtx.log 10 ∧
     thermal_efficiency specCtx 10 =
       ((specCtx.h T3 - h4_of specCtx 10) - (h2_of specCtx 10 - specCtx.h T1))
         / (specCtx.h T3 - h2_of specCtx 10) ∧
     net_work specCtx 10 =
       (specCtx.h T3 - h4_of specCtx 10) - (h2_of specCtx 10 - specCtx.h T1)) := by
  have hc : specCtx.s (T2s_of specCtx 10) - specCtx.s T1 - R * specCtx.log 10 = 0 := by
    norm_num [specCtx, T2s_of]
  have ht : specCtx.s (T4s_of specCtx 10) - specCtx.s T3 + R * specCtx.log 10 = 0 := by
    norm_num [specCtx, T4s_of]
  exact ⟨hc, ht, brayton_evaluator_correct specCtx 10 hc ht⟩

/-- C2: the inline compressor and turbine exit enthalpies of all three Brayton
evaluators are exactly the specification's component state model
`h_in + (h_out_isentropic - h_in) / efficiency` (compression) and
`h_in - efficiency * (h_in - h_out_isentropic)` (expansion), for every input
enthalpy pair and efficiency. -/
theorem component_state_model (c : Ctx α) (r eta_c_val eta_t_val : α) :
    h2_of c r = h_out_actual_compression (c.h T1) (c.h (T2s_of c r)) eta_c ∧
    h4_of c r = h_out_actual_expansion (c.h T3) (c.h (T4s_of c r)) eta_t ∧
    h2_comb c r = h_out_actual_compression (c.h T1) (c.h (T2s_comb c r)) eta_c ∧
    h4_comb c r = h_out_actual_expansion (c.h T3) (c.h (T4s_comb c r)) eta_t ∧
    thermal_efficiency_sens c r eta_c_val eta_t_val =
      ((c.h T3 - h_out_actual_expansion (c.h T3) (c.h (T4s_of c r)) eta_t_val)
          - (h_out_actual_compression (c.h T1) (c.h (T2s_of c r)) eta_c_val - c.h T1))
        / (c.h T3 - h_out_actual_compression (c.h T1) (c.h (T2s_of c r)) eta_c_val)
        * 100 :=
  ⟨rfl, rfl, rfl, rfl, rfl⟩

/-- C9: the three separate Brayton implementations agree:
`thermal_efficiency_sens(r, 0.90, 0.90)` is `thermal_efficiency(r) * 100`,
`net_work(r)` equals the `w_net` computed inside `thermal_efficiency(r)`, and
that `w_net` is the numerator of the ratio `thermal_efficiency` returns. -/
theorem implementations_agree (c : Ctx α) (r : α) :
    thermal_efficiency_sens c r 0.90 0.90 = thermal_efficiency c r * 100 ∧
    net_work c r = w_net_of c r ∧
    thermal_efficiency c r = w_net_of c r / q_in_of c r :=
  ⟨rfl, rfl, rfl⟩

/-- C3 (amended): whenever the inverse-enthalpy root-find converges, the
combined evaluator has resolved `T4_real` with `enthalpy(T4_real) = h4`; it
returns that temperature and `eta_brayton`, and its combined efficiency is
`((w_net_brayton + w_rankine) / q_in_brayton) * 100` — the claimed ratio in
percent, with `w_rankine` built from `max(0, h4 - h(T_stack))` — when
`T4_real ≥ T4_limit`, and `eta_brayton` itself below the hard threshold. -/
theorem combined_cycle_branches (c : Ctx α) (r : α)
    (hconv : c.h (T4_real_comb c r) - h4_comb c r = 0) :
    c.h (T4_real_comb c r) = h4_comb c r ∧
    (calculate_efficiencies_comb c r).2.2 = T4_real_comb c r ∧
    (calculate_efficiencies_comb c r).1 = eta_brayton_comb c r ∧
    (T4_limit ≤ T4_real_comb c r →
      (calculate_efficiencies_comb c r).2.1 =
        ((w_net_comb c r + w_rankine_comb c r) / q_in_comb c r) * 100) ∧
    (T4_real_comb c r < T4_limit →
      (calculate_efficiencies_comb c r).2.1 = eta_brayton_comb c r) := by
  rw [calculate_efficiencies_comb_eq]
  refine ⟨by linarith, rfl, rfl, ?_, ?_⟩
  · intro hT
    show (if T4_real_comb c r ≥ T4_limit then _ else _) = _
    rw [if_pos hT]
  · intro hT
    show (if T4_real_comb c r ≥ T4_limit then _ else _) = _
    rw [if_neg (not_le.mpr hT)]

/-- Witness for C3 at the context with identically zero enthalpy (the
inverse-enthalpy residual vanishes) and `r = 10`. -/
theorem combined_cycle_branches_witness :
    (flatCtx.h (T4_real_comb flatCtx 10) - h4_comb flatCtx 10 = 0) ∧
    (flatCtx.h (T4_real_comb flatCtx 10) = h4_comb flatCtx 10 ∧
     (calculate_efficiencies_comb flatCtx 10).2.2 = T4_real_comb flatCtx 10 ∧
     (calculate_efficiencies_comb flatCtx 10).1 = eta_brayton_comb flatCtx 10 ∧
     (T4_limit ≤ T4_real_comb flatCtx 10 →
       (calculate_efficiencies_comb flatCtx 10).2.1 =
         ((w_net_comb flatCtx 10 + w_rankine_comb flatCtx 10) / q_in_comb flatCtx 10) * 100) ∧
     (T4_real_comb flatCtx 10 < T4_limit →
       (calculate_efficiencies_comb flatCtx 10).2.1 = eta_brayton_comb flatCtx 10)) := by
  have hconv : flatCtx.h (T4_real_comb flatCtx 10) - h4_comb flatCtx 10 = 0 := by
    norm_num [flatCtx, T4_real_comb, h4_comb, T4s_comb, eta_t]
  exact ⟨hconv, combined_cycle_branches flatCtx 10 hconv⟩

/-- C3 (counterexample): at an explicit instance in the bottoming branch, the
combined efficiency the code returns is the percent value, not the bare ratio
`(net_work_brayton + w_bottoming) / heat_input_brayton` the claim states. -/
theorem combined_efficiency_is_percent :
    T4_real_comb echoCtx 10 ≥ T4_limit ∧
    (calculate_efficiencies_comb echoCtx 10).2.1 ≠
      (w_net_comb echoCtx 10 + w_rankine_comb echoCtx 10) / q_in_comb echoCtx 10 := by
  constructor
  · norm_num [echoCtx, T4_real_comb, T4_limit]
  · rw [calculate_efficiencies_comb_eq]
    norm_num [echoCtx, T4_real_comb, T4_limit, w_net_comb, w_rankine_comb, q_in_comb,
      h2_comb, h4_comb, T2s_comb, T4s_comb, T1, T3, T_stack, eta_c, eta_t,
      eta_rankine_1kg, q_in_rankine]

/-- C4: the solver result is used unconditionally — at a context whose solver
returns `500` without converging (the compressor-leg entropy residual at the
returned temperature is nonzero), `thermal_efficiency` still silently returns
a plain number computed from the unconverged temperature, and no failure of
any kind reaches the caller. -/
theorem unconverged_solve_silently_used :
    stuckCtx.s (T2s_of stuckCtx 2) - stuckCtx.s T1 - R * stuckCtx.log 2 ≠ 0 ∧
    thermal_efficiency stuckCtx 2 = 73030 / 121963 := by
  constructor
  · norm_num [stuckCtx, T2s_of, T1, R]
  · norm_num [thermal_efficiency, stuckCtx, T1, T3, eta_c, eta_t]

/-- C5: no parameter validation exists — with a compression ratio `1/2 ≤ 1`
and efficiencies `2` outside `(0, 1]`, `thermal_efficiency_sens` performs its
root-finding solves and returns a plain number instead of rejecting the
parameters. -/
theorem invalid_parameters_accepted :
    ((1 : ℚ) / 2 ≤ 1) ∧ ¬ ((2 : ℚ) ≤ 1) ∧
    thermal_efficiency_sens seedCtx (1 / 2) 2 2 = 4203700 / 30111 := by
  refine ⟨by norm_num, by norm_num, ?_⟩
  norm_num [thermal_efficiency_sens, seedCtx, T1, T3]

/-- C6: the `heat_input > 0` invariant is not enforced — at a context whose
solver drives the compressor exit enthalpy above the turbine inlet enthalpy,
`q_in` is negative for the valid ratio `r = 4`, yet `thermal_efficiency`
silently returns the nonsensical ratio `w_net / q_in` instead of failing. -/
theorem degenerate_cycle_not_rejected :
    (1 : ℚ) < 4 ∧ q_in_of degCtx 4 < 0 ∧
    thermal_efficiency degCtx 4 = 469970 / 178037 := by
  refine ⟨by norm_num, ?_, ?_⟩
  · norm_num [q_in_of, h2_of, T2s_of, degCtx, T1, T3, eta_c]
  · norm_num [thermal_efficiency, degCtx, T1, T3, eta_c, eta_t]

/-- C7: for every nonempty input sequence of compression ratios, the sweep
driver's reported maximum net work is the true maximum of the sampled result
sequence (a member bounding all samples), and its reported optimal ratio is
the input at the first index attaining that maximum: the index is in range,
the net work there equals the maximum, and every earlier sample is strictly
below it. -/
theorem sweep_optimum (c : Ctx α) (rs : List α) (hne : rs ≠ []) :
    w_net_max c rs ∈ w_net_values c rs ∧
    (∀ v ∈ w_net_values c rs, v ≤ w_net_max c rs) ∧
    npArgmax (w_net_values c rs) < rs.length ∧
    net_work c (r_opt c rs) = w_net_max c rs ∧
    (∀ j < npArgmax (w_net_values c rs), (w_net_values c rs).getD j 0 < w_net_max c rs) := by
  have hvne : w_net_values c rs ≠ [] := by
    simpa [w_net_values] using hne
  obtain ⟨h1, h2, h3⟩ := npArgmax_spec (w_net_values c rs) hvne
  have hidx : npArgmax (w_net_values c rs) < rs.length := by
    rw [← List.length_map rs (net_work c)]
    exact h1
  refine ⟨pyMax_mem _ hvne, fun v hv => le_pyMax _ v hv, hidx, ?_, h3⟩
  calc net_work c (r_opt c rs)
      = (w_net_values c rs).getD (npArgmax (w_net_values c rs)) 0 :=
        (getD_map_of_lt (net_work c) rs _ hidx).symm
    _ = pyMax (w_net_values c rs) := h2

/-- Witness for C7 on the two-element ratio sequence `[2, 3]`. -/
theorem sweep_optimum_witness :
    (([2, 3] : List ℚ) ≠ []) ∧
    (w_net_max specCtx [2, 3] ∈ w_net_values specCtx [2, 3] ∧
     (∀ v ∈ w_net_values specCtx [2, 3], v ≤ w_net_max specCtx [2, 3]) ∧
     npArgmax (w_net_values specCtx [2, 3]) < ([2, 3] : List ℚ).length ∧
     net_work specCtx (r_opt specCtx [2, 3]) = w_net_max specCtx [2, 3] ∧
     (∀ j < npArgmax (w_net_values specCtx [2, 3]),
       (w_net_values specCtx [2, 3]).getD j 0 < w_net_max specCtx [2, 3])) :=
  ⟨List.cons_ne_nil 2 [3], sweep_optimum specCtx [2, 3] (List.cons_ne_nil 2 [3])⟩

/-- C8: whenever the Brayton heat input is positive (the invariant of §4.3 of
the specification), the combined efficiency the combined evaluator returns is
at least the Brayton-only efficiency, and strictly below the exhaust
threshold it equals it — the hard, non-interpolated threshold. -/
theorem combined_ge_brayton (c : Ctx α) (r : α) (hq : 0 < q_in_comb c r) :
    (calculate_efficiencies_comb c r).1 ≤ (calculate_efficiencies_comb c r).2.1 ∧
    (T4_real_comb c r < T4_limit →
      (calculate_efficiencies_comb c r).2.1 = (calculate_efficiencies_comb c r).1) := by
  rw [calculate_efficiencies_comb_eq]
  constructor
  · show eta_brayton_comb c r ≤
      if T4_real_comb c r ≥ T4_limit then
        ((w_net_comb c r + w_rankine_comb c r) / q_in_comb c r) * 100
      else eta_brayton_comb c r
    by_cases hT : T4_real_comb c r ≥ T4_limit
    · rw [if_pos hT, eta_brayton_comb]
      have hwr : 0 ≤ w_rankine_comb c r := by
        rw [w_rankine_comb]
        apply mul_nonneg
        · exact div_nonneg (le_max_left 0 _) (by norm_num [q_in_rankine])
        · norm_num [q_in_rankine, eta_rankine_1kg]
      have hdiv : w_net_comb c r / q_in_comb c r ≤
          (w_net_comb c r + w_rankine_comb c r) / q_in_comb c r :=
        (div_le_div_iff_of_pos_right hq).mpr (by linarith)
      exact mul_le_mul_of_nonneg_right hdiv (by norm_num)
    · rw [if_neg hT]
  · intro hT
    show (if T4_real_comb c r ≥ T4_limit then _ else _) = _
    rw [if_neg (not_le.mpr hT)]

/-- Witness for C8 at the echo-solver context with identity enthalpy and
`r = 10`, where the Brayton heat input is positive. -/
theorem combined_ge_brayton_witness :
    0 < q_in_comb specCtx 10 ∧
    ((calculate_efficiencies_comb specCtx 10).1 ≤
       (calculate_efficiencies_comb specCtx 10).2.1 ∧
     (T4_real_comb specCtx 10 < T4_limit →
       (calculate_efficiencies_comb specCtx 10).2.1 =
         (calculate_efficiencies_comb specCtx 10).1)) := by
  have hq : 0 < q_in_comb specCtx 10 := by
    norm_num [q_in_comb, h2_comb, T2s_comb, specCtx, T1, T3, eta_c]
  exact ⟨hq, combined_ge_brayton specCtx 10 hq⟩

/-- C10: for every filename whose read raises (a missing file or any other
exception), `load_data` does not propagate the error: it returns the `10 × 6`
all-zero matrix, so the program proceeds with degenerate zero property data. -/
theorem load_data_zero_fallback {β ε σ : Type*} (read : β → Except ε σ)
    (findall : σ → List α) (filename : β) (e : ε)
    (hread : read filename = Except.error e) :
    load_data read findall filename = np_zeros_10_6 ∧
    (load_data read findall filename).length = 10 ∧
    ∀ row ∈ load_data read findall filename, row.length = 6 ∧ ∀ x ∈ row, x = 0 := by
  have hz : load_data read findall filename = (np_zeros_10_6 : List (List α)) := by
    unfold load_data
    rw [hread]
  refine ⟨hz, ?_, ?_⟩
  · rw [hz, np_zeros_10_6]
    exact List.length_replicate 10 _
  · rw [hz, np_zeros_10_6]
    intro row hrow
    have hrw := List.eq_of_mem_replicate hrow
    subst hrw
    exact ⟨List.length_replicate 6 0, fun x hx => List.eq_of_mem_replicate hx⟩

/-- Witness for C10 at a reader that always fails. -/
theorem load_data_zero_fallback_witness :
    ((fun _ : Unit => (Except.error () : Except Unit Unit)) () = Except.error ()) ∧
    (load_data (fun _ : Unit => (Except.error () : Except Unit Unit))
        (fun _ => ([] : List ℚ)) () = np_zeros_10_6 ∧
     (load_data (fun _ : Unit => (Except.error () : Except Unit Unit))
        (fun _ => ([] : List ℚ)) ()).length = 10 ∧
     ∀ row ∈ load_data (fun _ : Unit => (Except.error () : Except Unit Unit))
        (fun _ => ([] : List ℚ)) (), row.length = 6 ∧ ∀ x ∈ row, x = 0) :=
  ⟨rfl, load_data_zero_fallback _ _ () () rfl⟩

end CycleAnalysis
